import Mathlib

set_option linter.unusedVariables false

/-! Shallow embedding of the crds proof-of-work ledger node (src/index.js).

Modelling conventions:
* JavaScript numbers are modelled as exact rationals (`ℚ`).
* Hex hash strings are modelled as the natural numbers they denote
  (the code only compares them and feeds them to `bigint(hash, 16)`).
* SHA-256, ECDSA and Base58 are abstract collaborators, collected in a
  `Crypto` structure, exactly as the specification treats them.
* JS objects used as string-keyed maps are association lists; reads take the
  first matching key and writes replace the first matching key (or append).
* A JS value in price position is `Option ℚ`: `some q` is a finite number,
  `none` stands for `null` / `undefined` / `Infinity`, which the code never
  distinguishes observably (parsed JSON payloads cannot contain `Infinity`,
  and every read of a stored price goes through a finiteness gate).
-/

/-- A JS number in a price position. -/
abbrev QInf := Option ℚ

def CRD : String := "CRD"

def MESSAGE_TTL : ℚ := 10

def MESSAGES_PER_BLOCK_MAX : Nat := 10000

def MIN_DIFFICULTY : ℚ := 1000

def TARGET_BLOCKS : Nat := 10

def TARGET_TIME : ℚ := 10 * 60 * 1000

def TARGET_SWAY_MAX : ℚ := 2

def TARGET_SWAY_MIN : ℚ := 1/2

def COINBASE_QUANTITY : ℚ := 100

/-- `maxTarget = bigint('FF…FF', 16)`, i.e. `2^256 - 1`. -/
def maxTarget : Nat := 2 ^ 256 - 1

/-- `zeroHash = bigint(0).toString(16)`, the hex string "0". -/
def zeroHash : Nat := 0

/-- JS `Math.round` (half goes toward `+∞`). -/
def roundJs (q : ℚ) : ℤ := (q + 1/2).floor

/-- JS `Math.floor` as a rational-valued function. -/
def floorJs (q : ℚ) : ℚ := (q.floor : ℚ)

/-- `_getDifficultyTarget`: `maxTarget.divide(bigint(Math.round(difficulty)))`
(bigint division truncates toward zero). -/
def getDifficultyTarget (difficulty : ℚ) : ℤ :=
  Int.tdiv (maxTarget : ℤ) (roundJs difficulty)

/-- `_getHashDifficulty`: `bigint(hash, 16).divide(maxTarget).valueOf()` —
note this is bigint (integer) division, not real division. -/
def getHashDifficulty (hash : Nat) : ℚ := ((hash / maxTarget : Nat) : ℚ)

/-- `_checkHashMeetsTarget`: `bigint(hash, 16).leq(target)`. -/
def checkHashMeetsTarget (hash : Nat) (target : ℤ) : Bool :=
  decide ((hash : ℤ) ≤ target)

/-- `slice(-n)`: the last `min(n, length)` elements. -/
def lastN (n : Nat) (l : List α) : List α := l.drop (l.length - n)

/-- First-match lookup in a JS-object-as-association-list. -/
def lookupFirst (k : String) : List (String × α) → Option α
  | [] => none
  | (k', v) :: rest => if k' = k then some v else lookupFirst k rest

/-- Write `k → v`, replacing the first occurrence of `k` or appending. -/
def setFirst (k : String) (v : α) : List (String × α) → List (String × α)
  | [] => [(k, v)]
  | (k', v') :: rest =>
    if k' = k then (k', v) :: rest else (k', v') :: setFirst k v rest

/-- `delete obj[k]`: remove the first occurrence of `k`. -/
def removeFirst (k : String) : List (String × α) → List (String × α)
  | [] => []
  | (k', v') :: rest =>
    if k' = k then rest else (k', v') :: removeFirst k rest

/-- Character class `[A-Z0-9]` of the asset regexes. -/
def isBaseChar (c : Char) : Bool :=
  ('A' ≤ c && c ≤ 'Z') || ('0' ≤ c && c ≤ '9')

/-- Character admitted inside an asset part: `[A-Z0-9]` or `-`
(the positional lookahead constraints on `-` are checked globally). -/
def isCoreChar (c : Char) : Bool := isBaseChar c || c = '-'

/-- The regex lookaheads `(?!^)` and `(?!$)` on `-`: a hyphen may appear
neither as the first character of the whole string nor as its last. -/
def hyphenOk (s : String) : Bool :=
  s.data.head? ≠ some '-' && s.data.getLast? ≠ some '-'

/-- The core (before an optional `:mint` suffix) of a basic asset: one part,
or two parts joined by a single `.`, each a nonempty run of core characters. -/
def basicCoreOk (core : String) : Bool :=
  let parts := core.splitOn "."
  (parts.length = 1 || parts.length = 2) &&
    parts.all (fun p => !p.isEmpty && p.data.all isCoreChar)

/-- `_isValidAsset`: `/^(?:[A-Z0-9]|(?!^)\-(?!$))+(\.(?:[A-Z0-9]|(?!^)\-(?!$))+)?(?::mint)?$/`. -/
def isValidAsset (s : String) : Bool :=
  let core := if s.endsWith ":mint" then s.dropRight 5 else s
  basicCoreOk core && hyphenOk s

/-- `_isBasicAsset`: same as `_isValidAsset` without the `:mint` option. -/
def isBasicAsset (s : String) : Bool := basicCoreOk s && hyphenOk s

/-- `_isBaseAsset`: `/^(?:[A-Z0-9]|(?!^)\-(?!$))+$/` — a single part, no dot. -/
def isBaseAsset (s : String) : Bool :=
  (!s.isEmpty && s.data.all isCoreChar) && hyphenOk s

/-- `_isMintAsset`: `/:mint$/`. -/
def isMintAsset (s : String) : Bool := s.endsWith ":mint"

/-- `_getBaseAsset`: first capture of `/^((?:[A-Z0-9]|(?!^)\-(?!$))+)/` — the
longest prefix of core characters, backing off one character when that prefix
is the whole string and ends in `-` (the `(?!$)` lookahead). -/
def getBaseAsset (s : String) : String :=
  let p := s.data.takeWhile isCoreChar
  let p := if p.length = s.data.length && p.getLast? = some '-' then p.dropLast else p
  String.mk p

/-- `asset.match(/^(.+):mint$/)`: greedy, so the capture is everything before
the final `:mint` (and must be nonempty). -/
def mintMatch (asset : String) : Option String :=
  if asset.endsWith ":mint" && decide (5 < asset.length) then
    some (asset.dropRight 5)
  else none

/-- A minter slot as seen through a JS object read: absent (`undefined`),
the stored `null`, or a stored address string. -/
inductive MVal
  | undef
  | null
  | addr (a : String)
deriving DecidableEq, Repr

/-- JS truthiness of a minter value (`if (minter)`): `undefined` and `null`
are falsy, and so is the empty string. -/
def MVal.truthy : MVal → Bool
  | .undef => false
  | .null => false
  | .addr a => a ≠ ""

/-- JS property-key coercion, used when a minter value indexes
`newDb.balances[...]` in the `buy` commit branch. -/
def MVal.toKey : MVal → String
  | .undef => "undefined"
  | .null => "null"
  | .addr a => a

/-- The parsed JSON payload of a message (decoding success is a shared
precondition of `Message.verify`, so payloads are modelled already typed).
Every payload carries `startHeight`. -/
inductive Payload
  | coinbase (asset : String) (quantity : ℚ) (address : String) (startHeight : ℚ)
  | send (asset : String) (quantity : ℚ) (srcAddress dstAddress publicKey : String)
      (startHeight : ℚ)
  | minter (asset : String) (publicKey : String) (startHeight : ℚ)
  | mint (asset : String) (quantity : ℚ) (publicKey : String) (startHeight : ℚ)
  | get (address : String) (asset : String) (quantity : ℚ) (startHeight : ℚ)
  | burn (asset : String) (quantity : ℚ) (publicKey : String) (startHeight : ℚ)
  | drop (address : String) (asset : String) (quantity : ℚ) (startHeight : ℚ)
  | price (asset : String) (price : QInf) (publicKey : String) (startHeight : ℚ)
  | buy (asset : String) (quantity : ℚ) (price : QInf) (publicKey : String)
      (startHeight : ℚ)
deriving DecidableEq, Repr

def Payload.startHeight : Payload → ℚ
  | .coinbase _ _ _ s => s
  | .send _ _ _ _ _ s => s
  | .minter _ _ s => s
  | .mint _ _ _ s => s
  | .get _ _ _ s => s
  | .burn _ _ _ s => s
  | .drop _ _ _ s => s
  | .price _ _ _ s => s
  | .buy _ _ _ _ s => s

def Payload.isSend : Payload → Bool
  | .send _ _ _ _ _ _ => true
  | _ => false

/-- A message `{payload, hash, signature}`. -/
structure Msg where
  payload : Payload
  hash : Nat
  signature : String
deriving DecidableEq, Repr

/-- A block `{hash, prevHash, height, difficulty, version, timestamp, messages, nonce}`. -/
structure Block where
  hash : Nat
  prevHash : Nat
  height : ℚ
  difficulty : ℚ
  version : String
  timestamp : ℚ
  messages : List Msg
  nonce : ℚ
deriving DecidableEq, Repr

/-- The chain state `Db`. -/
structure Db where
  balances : List (String × List (String × ℚ))
  messageHashes : List (List Nat)
  minters : List (String × MVal)
  prices : List (String × QInf)
deriving DecidableEq, Repr

/-- `DEFAULT_DB`. -/
def DEFAULT_DB : Db :=
  { balances := []
    messageHashes := []
    minters := [(CRD, MVal.null)]
    prices := [(CRD, none)] }

/-- The mempool `{blocks, messages}`. -/
structure Mempool where
  blocks : List Block
  messages : List Msg
deriving DecidableEq, Repr

/-- The abstract cryptographic collaborators: SHA-256 of a canonical payload
encoding (as a hex value), the two-stage block hash, ECDSA verification
against a payload hash, and Base58 address derivation from a public key. -/
structure Crypto where
  sha256 : Payload → Nat
  blockHash : Nat → ℚ → ℚ → String → ℚ → List Msg → ℚ → Nat
  sigVerify : String → Nat → String → Bool
  addrOf : String → String
  nullPublicKey : String

/-- `Block.getHash`. -/
def blockGetHash (c : Crypto) (b : Block) : Nat :=
  c.blockHash b.prevHash b.height b.difficulty b.version b.timestamp b.messages b.nonce

/-- `(blocks.length > 0) ? blocks[blocks.length - 1].height : 0`. -/
def tailHeight (blocks : List Block) : ℚ :=
  match blocks.getLast? with
  | some b => b.height
  | none => 0

/-- `(blocks.length > 0) ? blocks[blocks.length - 1].hash : zeroHash`. -/
def tailHash (blocks : List Block) : Nat :=
  match blocks.getLast? with
  | some b => b.hash
  | none => zeroHash

/-- Errors `{status, error?, stack?, soft?}` returned by the validators. -/
structure VError where
  status : Nat
  error : Option String
  stack : Option String
  soft : Bool
deriving DecidableEq, Repr

/-- `balances[address][asset]`, defaulting missing entries to 0. -/
def getBal (b : List (String × List (String × ℚ))) (address asset : String) : ℚ :=
  ((lookupFirst address b).bind (lookupFirst asset)).getD 0

/-- Write `balances[address][asset] = v`, creating the address entry when
absent (as the commit code does with `addressEntry = {}`). -/
def setBal (b : List (String × List (String × ℚ))) (address asset : String) (v : ℚ) :
    List (String × List (String × ℚ)) :=
  setFirst address (setFirst asset v ((lookupFirst address b).getD [])) b

/-- `delete addressEntry[asset]`, then `delete balances[address]` when the
sub-map became empty.  When the address entry was absent the code first
creates an empty one and then deletes it again, a net no-op. -/
def removeBalAsset (b : List (String × List (String × ℚ))) (address asset : String) :
    List (String × List (String × ℚ)) :=
  match lookupFirst address b with
  | none => b
  | some sub =>
    let sub' := removeFirst asset sub
    if sub'.isEmpty then removeFirst address b
    else setFirst address sub' b

/-- The filter at the head of `_getPostMessagesMinter`: messages of type
`minter` for `asset`, or `send` messages of the asset `asset + ":mint"`. -/
def minterMsgFilter (asset : String) (messages : List Msg) : List Msg :=
  messages.filter (fun m =>
    match m.payload with
    | .minter a _ _ => a = asset
    | .send a _ _ _ _ _ => a = asset ++ ":mint"
    | _ => false)

/-- One pass of the `while` loop of `_getPostMessagesMinter`: scan for the
first applicable message, apply it and splice it out. -/
def minterStep (c : Crypto) (minter : MVal) : List Msg → Option (MVal × List Msg)
  | [] => none
  | m :: rest =>
    let keep := fun (r : Option (MVal × List Msg)) =>
      match r with
      | some (mv, rest') => some (mv, m :: rest')
      | none => none
    match m.payload with
    | .minter _ publicKey _ =>
      if minter = .undef then some (.addr (c.addrOf publicKey), rest)
      else keep (minterStep c minter rest)
    | .send _ _ srcAddress dstAddress _ _ =>
      if minter = .addr srcAddress then some (.addr dstAddress, rest)
      else keep (minterStep c minter rest)
    | _ => keep (minterStep c minter rest)

/-- The `while (mintMessages.length > 0 && !done)` loop; each productive pass
removes one message, so the initial length is enough fuel. -/
def minterLoop (c : Crypto) : Nat → MVal → List Msg → MVal
  | 0, minter, _ => minter
  | fuel + 1, minter, messages =>
    match minterStep c minter messages with
    | none => minter
    | some (minter', messages') => minterLoop c fuel minter' messages'

/-- `_getPostMessagesMinter`. -/
def getPostMessagesMinter (c : Crypto) (minter : MVal) (asset : String)
    (messages : List Msg) : MVal :=
  let mintMessages := minterMsgFilter asset messages
  minterLoop c mintMessages.length minter mintMessages

/-- `_getConfirmedMinter`. -/
def getConfirmedMinter (c : Crypto) (db : Db) (confirmingMessages : List Msg)
    (asset : String) : MVal :=
  getPostMessagesMinter c ((lookupFirst asset db.minters).getD .undef) asset
    confirmingMessages

/-- `_getUnconfirmedMinter`. -/
def getUnconfirmedMinter (c : Crypto) (db : Db) (mempool : Mempool)
    (confirmingMessages : List Msg) (asset : String) : MVal :=
  getPostMessagesMinter c (getConfirmedMinter c db confirmingMessages asset) asset
    mempool.messages

/-- `_getPostMessagesPrices`: append the prices of `price` messages for the
asset.  (The trailing `null → Infinity` normalisation of the caller is the
identity here, both being `none`.) -/
def getPostMessagesPrices (prices : List QInf) (asset : String)
    (messages : List Msg) : List QInf :=
  prices ++ messages.filterMap (fun m =>
    match m.payload with
    | .price a p _ _ => if a = asset then some p else none
    | _ => none)

/-- `_getConfirmedPrices`: the stored price (absent → `Infinity`) followed by
sibling price messages. -/
def getConfirmedPrices (db : Db) (confirmingMessages : List Msg)
    (asset : String) : List QInf :=
  getPostMessagesPrices [(lookupFirst asset db.prices).getD none] asset
    confirmingMessages

/-- `_getUnconfirmedPrices`. -/
def getUnconfirmedPrices (db : Db) (mempool : Mempool)
    (confirmingMessages : List Msg) (asset : String) : List QInf :=
  getPostMessagesPrices (getConfirmedPrices db confirmingMessages asset) asset
    mempool.messages

/-- `_getConfirmedPrice`: `prices[prices.length - 1]` (the list is never
empty, so the default is unreachable). -/
def getConfirmedPrice (db : Db) (confirmingMessages : List Msg)
    (asset : String) : QInf :=
  ((getConfirmedPrices db confirmingMessages asset).getLast?).getD none

/-- `_getUnconfirmedPrice`. -/
def getUnconfirmedPrice (db : Db) (mempool : Mempool)
    (confirmingMessages : List Msg) (asset : String) : QInf :=
  ((getUnconfirmedPrices db mempool confirmingMessages asset).getLast?).getD none

/-- `_getPostMessagesBalance`: replay a message list on top of a scalar
balance of `(address, asset)`.  In the `burn`/`drop` branches the scalar
replay subtracts without the delete-clamping of the commit path. -/
def getPostMessagesBalance (c : Crypto) (db : Db) (mempool : Option Mempool)
    (confirmingMessages : List Msg) (address asset : String) :
    ℚ → List Msg → ℚ
  | balance, [] => balance
  | balance, m :: rest =>
    let balance :=
      match m.payload with
      | .coinbase localAsset quantity localAddress _ =>
        if localAsset = asset ∧ localAddress = address then balance + quantity
        else balance
      | .send a quantity srcAddress dstAddress _ _ =>
        if a = asset then
          let b1 := if srcAddress = address then balance - quantity else balance
          if dstAddress = address then b1 + quantity else b1
        else balance
      | .buy localAsset quantity price publicKey _ =>
        let localAddress := c.addrOf publicKey
        if asset = CRD then
          let minter :=
            match mempool with
            | none => getConfirmedMinter c db confirmingMessages localAsset
            | some mp => getUnconfirmedMinter c db mp confirmingMessages localAsset
          let b1 :=
            if minter = .addr address then balance + price.getD 0 * quantity
            else balance
          if address = localAddress then b1 - price.getD 0 * quantity else b1
        else
          if address = localAddress ∧ asset = localAsset then balance + quantity
          else balance
      | .mint localAsset quantity publicKey _ =>
        if c.addrOf publicKey = address ∧ localAsset = asset then balance + quantity
        else balance
      | .get localAddress localAsset quantity _ =>
        if localAddress = address ∧ localAsset = asset then balance + quantity
        else balance
      | .burn localAsset quantity publicKey _ =>
        if c.addrOf publicKey = address ∧ localAsset = asset then balance - quantity
        else balance
      | .drop localAddress localAsset quantity _ =>
        if localAddress = address ∧ localAsset = asset then balance - quantity
        else balance
      | .minter localAsset publicKey _ =>
        if c.addrOf publicKey = address ∧ localAsset ++ ":mint" = asset then
          balance + 1
        else balance
      | .price _ _ _ _ => balance
    getPostMessagesBalance c db mempool confirmingMessages address asset balance rest

/-- `_getConfirmedBalance`. -/
def getConfirmedBalance (c : Crypto) (db : Db) (confirmingMessages : List Msg)
    (address asset : String) : ℚ :=
  getPostMessagesBalance c db none confirmingMessages address asset
    (getBal db.balances address asset) confirmingMessages

/-- `_getUnconfirmedBalance`. -/
def getUnconfirmedBalance (c : Crypto) (db : Db) (mempool : Mempool)
    (confirmingMessages : List Msg) (address asset : String) : ℚ :=
  getPostMessagesBalance c db (some mempool) confirmingMessages address asset
    (getConfirmedBalance c db confirmingMessages address asset) mempool.messages

/-- `Message.verify(db, blocks, mempool, confirmingMessages)`. -/
def verifyMsg (c : Crypto) (db : Db) (blocks : List Block) (mempool : Option Mempool)
    (confirmingMessages : List Msg) (m : Msg) : Option VError :=
  let payloadHash := c.sha256 m.payload
  if payloadHash = m.hash then
    let startHeight := m.payload.startHeight
    let endHeight := startHeight + MESSAGE_TTL
    let nextHeight := tailHeight blocks + 1
    if nextHeight ≥ startHeight ∧ nextHeight < endHeight then
      if ¬ db.messageHashes.any (fun hashes => hashes.contains m.hash) then
        match m.payload with
        | .coinbase asset quantity _ _ =>
          if c.sigVerify c.nullPublicKey payloadHash m.signature then
            if asset = CRD ∧ quantity = COINBASE_QUANTITY then
              if (confirmingMessages.filter (fun cm =>
                    match cm.payload with
                    | .coinbase _ _ _ _ => true
                    | _ => false)).length = 0 then
                none
              else some ⟨400, some "multiple coinbases", none, false⟩
            else some ⟨400, some "invalid coinbase", none, false⟩
          else some ⟨400, some "invalid signature", none, false⟩
        | .send asset quantity srcAddress _ publicKey _ =>
          if c.sigVerify publicKey payloadHash m.signature ∧
              c.addrOf publicKey = srcAddress then
            if isValidAsset asset then
              if 0 < quantity ∧ floorJs quantity = quantity ∧
                  (¬ isMintAsset asset = true ∨ quantity = 1) then
                let balance :=
                  match mempool with
                  | none => getConfirmedBalance c db confirmingMessages srcAddress asset
                  | some mp =>
                    getUnconfirmedBalance c db mp confirmingMessages srcAddress asset
                if balance ≥ quantity then none
                else some ⟨402, some "insufficient funds", none, false⟩
              else some ⟨400, some "invalid quantity", none, false⟩
            else some ⟨400, some "invalid asset", none, false⟩
          else some ⟨400, some "invalid signature", none, false⟩
        | .minter asset publicKey _ =>
          if c.sigVerify publicKey payloadHash m.signature then
            if isBaseAsset asset then
              let minter :=
                match mempool with
                | none => getConfirmedMinter c db confirmingMessages asset
                | some mp => getUnconfirmedMinter c db mp confirmingMessages asset
              if minter = .undef then none
              else some ⟨400, none, some "asset already has minter", false⟩
            else some ⟨400, none, some "invalid asset", false⟩
          else some ⟨400, some "invalid signature", none, false⟩
        | .mint asset quantity publicKey _ =>
          if c.sigVerify publicKey payloadHash m.signature then
            if isBasicAsset asset then
              if 0 < quantity ∧ floorJs quantity = quantity then
                let address := c.addrOf publicKey
                let baseAsset := getBaseAsset asset
                let minter :=
                  match mempool with
                  | none => getConfirmedMinter c db confirmingMessages baseAsset
                  | some mp => getUnconfirmedMinter c db mp confirmingMessages baseAsset
                if minter = .addr address then none
                else
                  let price :=
                    match mempool with
                    | none => getConfirmedPrice db confirmingMessages baseAsset
                    | some mp => getUnconfirmedPrice db mp confirmingMessages baseAsset
                  if price = some 0 then none
                  else some ⟨400, none, some "address cannot mint this asset", false⟩
              else some ⟨400, some "invalid quantity", none, false⟩
            else some ⟨400, some "invalid asset", none, false⟩
          else some ⟨400, some "invalid signature", none, false⟩
        | .get address asset quantity _ =>
          if c.sigVerify c.nullPublicKey payloadHash m.signature then
            if isBasicAsset asset then
              if 0 < quantity ∧ floorJs quantity = quantity then
                let baseAsset := getBaseAsset asset
                let minter :=
                  match mempool with
                  | none => getConfirmedMinter c db confirmingMessages baseAsset
                  | some mp => getUnconfirmedMinter c db mp confirmingMessages baseAsset
                if minter = .undef ∨ minter = .addr address then none
                else
                  let price :=
                    match mempool with
                    | none => getConfirmedPrice db confirmingMessages baseAsset
                    | some mp => getUnconfirmedPrice db mp confirmingMessages baseAsset
                  if price = some 0 then none
                  else some ⟨400, none, some "address cannot mint this asset", false⟩
              else some ⟨400, some "invalid quantity", none, false⟩
            else some ⟨400, some "invalid asset", none, false⟩
          else some ⟨400, some "invalid signature", none, false⟩
        | .burn asset quantity publicKey _ =>
          if c.sigVerify publicKey payloadHash m.signature then
            if isBasicAsset asset then
              if 0 < quantity ∧ floorJs quantity = quantity then
                let address := c.addrOf publicKey
                let checkFree :=
                  let baseAsset := getBaseAsset asset
                  let minter :=
                    match mempool with
                    | none => getConfirmedMinter c db confirmingMessages baseAsset
                    | some mp => getUnconfirmedMinter c db mp confirmingMessages baseAsset
                  if minter = .undef ∨ minter = .addr address then none
                  else
                    let price :=
                      match mempool with
                      | none => getConfirmedPrice db confirmingMessages baseAsset
                      | some mp => getUnconfirmedPrice db mp confirmingMessages baseAsset
                    if price = some 0 then none
                    else some ⟨400, none, some "address cannot burn this asset", false⟩
                let checkBalance :=
                  let balance :=
                    match mempool with
                    | none => getConfirmedBalance c db confirmingMessages address asset
                    | some mp =>
                      getUnconfirmedBalance c db mp confirmingMessages address asset
                  if balance ≥ quantity then none
                  else some ⟨402, some "insufficient funds", none, false⟩
                match checkFree with
                | some e => some e
                | none => checkBalance
              else some ⟨400, some "invalid quantity", none, false⟩
            else some ⟨400, some "invalid asset", none, false⟩
          else some ⟨400, some "invalid signature", none, false⟩
        | .drop address asset quantity _ =>
          if c.sigVerify c.nullPublicKey payloadHash m.signature then
            if isBasicAsset asset then
              if 0 < quantity ∧ floorJs quantity = quantity then
                let checkFree :=
                  let baseAsset := getBaseAsset asset
                  let minter :=
                    match mempool with
                    | none => getConfirmedMinter c db confirmingMessages baseAsset
                    | some mp => getUnconfirmedMinter c db mp confirmingMessages baseAsset
                  if minter = .undef ∨ minter = .addr address then none
                  else
                    let price :=
                      match mempool with
                      | none => getConfirmedPrice db confirmingMessages baseAsset
                      | some mp => getUnconfirmedPrice db mp confirmingMessages baseAsset
                    if price = some 0 then none
                    else some ⟨400, none, some "address cannot drop this asset", false⟩
                let checkBalance :=
                  let balance :=
                    match mempool with
                    | none => getConfirmedBalance c db confirmingMessages address asset
                    | some mp =>
                      getUnconfirmedBalance c db mp confirmingMessages address asset
                  if balance ≥ quantity then none
                  else some ⟨402, some "insufficient funds", none, false⟩
                match checkFree with
                | some e => some e
                | none => checkBalance
              else some ⟨400, some "invalid quantity", none, false⟩
            else some ⟨400, some "invalid asset", none, false⟩
          else some ⟨400, some "invalid signature", none, false⟩
        | .price asset price publicKey _ =>
          if c.sigVerify publicKey payloadHash m.signature then
            if isBaseAsset asset then
              let address := c.addrOf publicKey
              let minter :=
                match mempool with
                | none => getConfirmedMinter c db confirmingMessages asset
                | some mp => getUnconfirmedMinter c db mp confirmingMessages asset
              if minter = .addr address then
                match price with
                | some p =>
                  if 0 ≤ p ∧ floorJs p = p then none
                  else some ⟨400, none, some "invalid price", false⟩
                | none => some ⟨400, none, some "invalid price", false⟩
              else some ⟨400, none, some "address is not minter of this asset", false⟩
            else some ⟨400, some "invalid asset", none, false⟩
          else some ⟨400, some "invalid signature", none, false⟩
        | .buy asset quantity price publicKey _ =>
          if c.sigVerify publicKey payloadHash m.signature then
            if isBaseAsset asset then
              if 0 < quantity ∧ floorJs quantity = quantity then
                match price with
                | some p =>
                  if 0 < p ∧ floorJs p = p then
                    let address := c.addrOf publicKey
                    let minter :=
                      match mempool with
                      | none => getConfirmedMinter c db confirmingMessages asset
                      | some mp => getUnconfirmedMinter c db mp confirmingMessages asset
                    if minter.truthy then
                      let prices :=
                        match mempool with
                        | none => getConfirmedPrices db confirmingMessages asset
                        | some mp => getUnconfirmedPrices db mp confirmingMessages asset
                      if prices.contains (some p) then
                        let balance :=
                          match mempool with
                          | none => getConfirmedBalance c db confirmingMessages address CRD
                          | some mp =>
                            getUnconfirmedBalance c db mp confirmingMessages address CRD
                        if balance ≥ quantity * p then none
                        else some ⟨400, none, some "insufficient funds", false⟩
                      else some ⟨400, none, some "incorrect declared price", false⟩
                    else some ⟨400, none, some "address is not minter of this asset", false⟩
                  else some ⟨400, none, some "invalid price", false⟩
                | none => some ⟨400, none, some "invalid price", false⟩
              else some ⟨400, none, some "invalid quantity", false⟩
            else some ⟨400, some "invalid asset", none, false⟩
          else some ⟨400, some "invalid signature", none, false⟩
      else some ⟨400, some "replay detected", none, true⟩
    else some ⟨400, some "ttl expired", none, false⟩
  else some ⟨400, some "invalid hash", none, false⟩

/-- Insert into a list sorted (ascending) by `key`. -/
def insertSorted (key : α → ℚ) (x : α) : List α → List α
  | [] => [x]
  | y :: ys => if key x ≤ key y then x :: y :: ys else y :: insertSorted key x ys

/-- Sort ascending by `key` (the JS `sort((a, b) => a.timestamp - b.timestamp)`
produces a list sorted by the key; any sorted permutation yields the same
key sequence, which is all the callers read). -/
def sortOn (key : α → ℚ) : List α → List α
  | [] => []
  | x :: xs => insertSorted key x (sortOn key xs)

/-- `sortedCheckBlocks[i].timestamp` (indices are in range at every use). -/
def tsAt (l : List Block) (i : Nat) : ℚ :=
  ((l.get? i).map Block.timestamp).getD 0

/-- `_getNextBlockMinTimestamp`: median timestamp of the last
`TARGET_BLOCKS` blocks, 0 when there are none. -/
def getNextBlockMinTimestamp (blocks : List Block) : ℚ :=
  let checkBlocks := lastN TARGET_BLOCKS blocks
  let sortedCheckBlocks := sortOn Block.timestamp checkBlocks
  if 0 < sortedCheckBlocks.length then
    let middleIndex := (sortedCheckBlocks.length - 1) / 2
    if sortedCheckBlocks.length % 2 = 1 then tsAt sortedCheckBlocks middleIndex
    else (tsAt sortedCheckBlocks middleIndex + tsAt sortedCheckBlocks (middleIndex + 1)) / 2
  else 0

/-- `_getNextBlockBaseDifficulty`. -/
def getNextBlockBaseDifficulty (blocks : List Block) : ℚ :=
  let checkBlocks := lastN TARGET_BLOCKS blocks
  let checkBlocksTimeDiff :=
    match checkBlocks with
    | [] => 0
    | b :: rest =>
      let firstCheckBlock :=
        rest.foldl (fun acc cb => if cb.timestamp < acc.timestamp then cb else acc) b
      let lastCheckBlock :=
        rest.foldl (fun acc cb => if cb.timestamp > acc.timestamp then cb else acc) b
      lastCheckBlock.timestamp - firstCheckBlock.timestamp
  let expectedTimeDiff := TARGET_TIME
  let averageDifficulty :=
    match checkBlocks with
    | [] => 0
    | _ :: _ =>
      (checkBlocks.foldl (fun acc cb => acc + cb.difficulty) 0) / checkBlocks.length
  let accuracyFactor :=
    max (min (checkBlocksTimeDiff / expectedTimeDiff) TARGET_SWAY_MAX) TARGET_SWAY_MIN
  max (averageDifficulty / accuracyFactor) MIN_DIFFICULTY

/-- `_getMessagesDifficulty`. -/
def getMessagesDifficulty (messages : List Msg) : ℚ :=
  messages.foldl (fun result m => result + getHashDifficulty m.hash) 0

/-- The `_verifyMessages` loop of `Block.verify`: message `i` is checked with
all the other messages of the block as `confirmingMessages`; the first error
is returned. -/
def verifyMessagesLoop (c : Crypto) (db : Db) (blocks : List Block)
    (mempool : Option Mempool) (done : List Msg) : List Msg → Option VError
  | [] => none
  | m :: rest =>
    match verifyMsg c db blocks mempool (done ++ rest) m with
    | some e => some e
    | none => verifyMessagesLoop c db blocks mempool (done ++ [m]) rest

/-- `Block.verify(db, blocks, mempool)`. -/
def verifyBlock (c : Crypto) (db : Db) (blocks : List Block)
    (mempool : Option Mempool) (b : Block) : Option VError :=
  if ¬ blockGetHash c b = b.hash then
    some ⟨400, some "invalid hash", none, false⟩
  else if ¬ b.prevHash = tailHash blocks then
    some ⟨400, some "invalid previous hash", none, true⟩
  else if ¬ b.height = tailHeight blocks + 1 then
    some ⟨400, some "invalid height", none, false⟩
  else if ¬ b.timestamp ≥ getNextBlockMinTimestamp blocks then
    some ⟨400, some "invalid timestamp", none, false⟩
  else if ¬ checkHashMeetsTarget b.hash (getDifficultyTarget b.difficulty) = true then
    some ⟨400, some "invalid difficulty claim", none, false⟩
  else if ¬ b.messages.length ≤ MESSAGES_PER_BLOCK_MAX then
    some ⟨400, some "too many messages", none, false⟩
  else if ¬ b.difficulty ≥
      max (getNextBlockBaseDifficulty blocks - getMessagesDifficulty b.messages)
        MIN_DIFFICULTY then
    some ⟨400, some "insufficient difficulty", none, false⟩
  else verifyMessagesLoop c db blocks mempool [] b.messages

/-- One iteration of the message loop of `_commitMainChainBlock`. -/
def applyCommitMessage (c : Crypto) (db : Db) (m : Msg) : Db :=
  match m.payload with
  | .coinbase asset quantity address _ =>
    { db with balances :=
        setBal db.balances address asset (getBal db.balances address asset + quantity) }
  | .send asset quantity srcAddress dstAddress _ _ =>
    let b1 :=
      setBal db.balances srcAddress asset
        (getBal db.balances srcAddress asset - quantity)
    let b2 := setBal b1 dstAddress asset (getBal b1 dstAddress asset + quantity)
    let minters :=
      match mintMatch asset with
      | some baseAsset => setFirst baseAsset (.addr dstAddress) db.minters
      | none => db.minters
    { db with balances := b2, minters := minters }
  | .price asset price _ _ =>
    { db with prices := setFirst asset price db.prices }
  | .buy asset quantity price publicKey _ =>
    let srcAddress := ((lookupFirst asset db.minters).getD .undef).toKey
    let dstAddress := c.addrOf publicKey
    let b1 :=
      setBal db.balances srcAddress CRD
        (getBal db.balances srcAddress CRD + quantity * price.getD 0)
    let b2 := setBal b1 dstAddress CRD (getBal b1 dstAddress CRD - quantity * price.getD 0)
    let b3 := setBal b2 dstAddress asset (getBal b2 dstAddress asset + quantity)
    { db with balances := b3 }
  | .mint asset quantity publicKey _ =>
    let address := c.addrOf publicKey
    { db with balances :=
        setBal db.balances address asset (getBal db.balances address asset + quantity) }
  | .get address asset quantity _ =>
    { db with balances :=
        setBal db.balances address asset (getBal db.balances address asset + quantity) }
  | .burn asset quantity publicKey _ =>
    let address := c.addrOf publicKey
    let newBalances :=
      match (lookupFirst address db.balances).bind (lookupFirst asset) with
      | some v =>
        if v - quantity > 0 then setBal db.balances address asset (v - quantity)
        else removeBalAsset db.balances address asset
      | none => removeBalAsset db.balances address asset
    { db with balances := newBalances }
  | .drop address asset quantity _ =>
    let newBalances :=
      match (lookupFirst address db.balances).bind (lookupFirst asset) with
      | some v =>
        if v - quantity > 0 then setBal db.balances address asset (v - quantity)
        else removeBalAsset db.balances address asset
      | none => removeBalAsset db.balances address asset
    { db with balances := newBalances }
  | .minter asset publicKey _ =>
    let mintAsset := asset ++ ":mint"
    let address := c.addrOf publicKey
    { db with
        balances :=
          setBal db.balances address mintAsset
            (getBal db.balances address mintAsset + 1)
        minters := setFirst asset (.addr address) db.minters }

/-- `while (newDb.messageHashes.length > MESSAGE_TTL) shift()`. -/
def trimMessageHashes (l : List (List Nat)) : List (List Nat) :=
  l.drop (l.length - 10)

/-- `_commitMainChainBlock(db, blocks, mempool, block)`; the `blocks`
parameter is unused in the source body.  Returns `{newDb, newMempool}`. -/
def commitMainChainBlock (c : Crypto) (db : Db) (blocks : List Block)
    (mempool : Option Mempool) (block : Block) : Db × Option Mempool :=
  let newDb0 := block.messages.foldl (applyCommitMessage c) db
  let newDb :=
    { newDb0 with
        messageHashes :=
          trimMessageHashes (newDb0.messageHashes ++ [block.messages.map Msg.hash]) }
  let newMempool := mempool.map (fun mp =>
    { blocks := mp.blocks.filter (fun mempoolBlock => mempoolBlock.hash ≠ block.hash)
      messages := mp.messages.filter (fun mempoolMessage =>
        ¬ block.messages.any (fun blockMessage =>
          blockMessage.signature = mempoolMessage.signature)) })
  (newDb, newMempool)

/-- `Crds.addMessage(db, blocks, mempool, message)`: the result is the
returned error (null on success or silent duplicate), the new mempool, and
whether a `message` event was emitted. -/
def addMessage (c : Crypto) (db : Db) (blocks : List Block) (mempool : Mempool)
    (message : Msg) : Option VError × Mempool × Bool :=
  if mempool.messages.length < MESSAGES_PER_BLOCK_MAX then
    if ¬ mempool.messages.any (fun mempoolMessage => mempoolMessage.hash = message.hash) then
      match verifyMsg c db blocks (some mempool) [] message with
      | none =>
        (none, { mempool with messages := mempool.messages ++ [message] }, true)
      | some e => (some e, mempool, false)
    else (none, mempool, false)
  else (some ⟨503, some "mempool full", none, false⟩, mempool, false)

/-- A thrown JS exception. -/
inductive JsError
  | referenceError (message : String)
deriving DecidableEq, Repr

/-- `_getBlocksTotalDifficulty`. -/
def getBlocksTotalDifficulty (blocks : List Block) : ℚ :=
  blocks.foldl (fun result b => result + getHashDifficulty b.hash) 0

/-- `_getBlocksMessages`: the loop bound is `j < messages`, comparing a
number with an array, which is false for every `j`, so the result is always
empty. -/
def getBlocksMessages (blocks : List Block) : List Msg := []

/-- `blocks.slice(h)` for a rational (JS number) start index `h ≥ 0`. -/
def sliceFrom (blocks : List Block) (h : ℚ) : List Block :=
  blocks.drop h.floor.toNat

/-- `blocks.slice(-n)` for a rational count `n`. -/
def sliceLast (blocks : List Block) (n : ℚ) : List Block :=
  blocks.drop (blocks.length - n.floor.toNat)

/-- `_commitSideChainBlock(dbs, blocks, mempool, block, forkedBlock,
sideChainBlocks)`.  After computing the fork-relative work of both chains and
slicing the orphaned blocks, the source evaluates
`const topSideChainBlockIndex = sidechainBlocks.length - 1;` — the identifier
`sidechainBlocks` is never declared (the parameter is `sideChainBlocks`), so
every call raises a ReferenceError before any state is produced. -/
def commitSideChainBlock (dbs : List Db) (blocks : List Block) (mempool : Mempool)
    (block : Block) (forkedBlock : Option Block) (sideChainBlocks : List Block) :
    Except JsError (List Db × List Block × Mempool) :=
  let forkedBlockHeight : ℚ :=
    match forkedBlock with
    | some fb => fb.height
    | none => 0
  let mainChainDifficulty := getBlocksTotalDifficulty (sliceFrom blocks forkedBlockHeight)
  let sideChainDifficulty :=
    getBlocksTotalDifficulty (sliceFrom sideChainBlocks forkedBlockHeight)
  let needsReorg := sideChainDifficulty > mainChainDifficulty
  let forkedBlockIndex := forkedBlockHeight - 1
  let topBlockIndex : ℚ := (blocks.length : ℚ) - 1
  let numSlicedBlocks := topBlockIndex - forkedBlockIndex
  let slicedBlocks := sliceLast blocks numSlicedBlocks
  let slicedMessages := getBlocksMessages slicedBlocks
  Except.error (.referenceError "sidechainBlocks is not defined")

/-- Sum of one asset's balance over every address entry (total supply). -/
def sumAsset (b : List (String × List (String × ℚ))) (asset : String) : ℚ :=
  (b.map (fun e => (lookupFirst asset e.2).getD 0)).sum

/-- Decidable check that every stored balance is non-negative. -/
def balancesNonneg (b : List (String × List (String × ℚ))) : Bool :=
  b.all (fun e => e.2.all (fun q => decide (0 ≤ q.2)))

/-- `l[i]` for a sorted rational list, defaulting out-of-range to 0. -/
def qAt (l : List ℚ) (i : Nat) : ℚ := (l.get? i).getD 0

/-- The specification's median: sort the sample; an odd-sized sample takes
the middle value, an even-sized one the arithmetic mean of the two middle
values; an empty sample gives 0. -/
def specMedian (l : List ℚ) : ℚ :=
  let s := sortOn id l
  if 0 < s.length then
    let middleIndex := (s.length - 1) / 2
    if s.length % 2 = 1 then qAt s middleIndex
    else (qAt s middleIndex + qAt s (middleIndex + 1)) / 2
  else 0

/-- Maximum of a rational sample (0 when empty, never used so). -/
def listMaxQ : List ℚ → ℚ
  | [] => 0
  | x :: xs => xs.foldl max x

/-- Minimum of a rational sample (0 when empty, never used so). -/
def listMinQ : List ℚ → ℚ
  | [] => 0
  | x :: xs => xs.foldl min x

/-- Arithmetic mean of a rational sample. -/
def meanQ (l : List ℚ) : ℚ := l.sum / l.length

/-- `clamp(x, lo, hi) = max(min(x, hi), lo)`. -/
def clampQ (x lo hi : ℚ) : ℚ := max (min x hi) lo

/-- Return the error of the first failing check, if any. -/
def firstFailure : List (Bool × VError) → Option VError
  | [] => none
  | (ok, e) :: rest => if ok then firstFailure rest else some e

/-- The specification's ordered list of the self-contained block checks
1–7 (check 8, message validation, follows them). -/
def specBlockChecks (c : Crypto) (blocks : List Block) (b : Block) :
    List (Bool × VError) :=
  [ (decide (blockGetHash c b = b.hash),
      ⟨400, some "invalid hash", none, false⟩),
    (decide (b.prevHash = tailHash blocks),
      ⟨400, some "invalid previous hash", none, true⟩),
    (decide (b.height = tailHeight blocks + 1),
      ⟨400, some "invalid height", none, false⟩),
    (decide (specMedian ((lastN TARGET_BLOCKS blocks).map Block.timestamp) ≤ b.timestamp),
      ⟨400, some "invalid timestamp", none, false⟩),
    (checkHashMeetsTarget b.hash (getDifficultyTarget b.difficulty),
      ⟨400, some "invalid difficulty claim", none, false⟩),
    (decide (b.messages.length ≤ MESSAGES_PER_BLOCK_MAX),
      ⟨400, some "too many messages", none, false⟩),
    (decide (max (getNextBlockBaseDifficulty blocks - getMessagesDifficulty b.messages)
        MIN_DIFFICULTY ≤ b.difficulty),
      ⟨400, some "insufficient difficulty", none, false⟩) ]

/-- A concrete `Crypto` instance used for closed evaluations: every payload
hashes to 1, every block hashes to 7, signatures always verify, and an
address is its public key. -/
def trivCrypto : Crypto :=
  { sha256 := fun _ => 1
    blockHash := fun _ _ _ _ _ _ _ => 7
    sigVerify := fun _ _ _ => true
    addrOf := fun pk => pk
    nullPublicKey := "NULL" }

/-- C1 input state: A holds the GOLD mint token, C holds 100 CRD, A is the
minter of GOLD and the advertised GOLD price is 100. -/
def c1Db : Db :=
  { balances := [("A", [("GOLD:mint", 1)]), ("C", [("CRD", 100)])]
    messageHashes := []
    minters := [(CRD, MVal.null), ("GOLD", MVal.addr "A")]
    prices := [(CRD, none), ("GOLD", some 100)] }

def c1B0 : Block :=
  { hash := 5, prevHash := 0, height := 1, difficulty := 1000, version := "0.0.1"
    timestamp := 0, messages := [], nonce := 0 }

/-- C buys 1 GOLD at the advertised price 100. -/
def c1Msg1 : Msg :=
  { payload := .buy "GOLD" 1 (some 100) "C" 2, hash := 1, signature := "u" }

/-- A transfers the GOLD mint token to B. -/
def c1Msg2 : Msg :=
  { payload := .send "GOLD:mint" 1 "A" "B" "A" 2, hash := 1, signature := "v" }

/-- B spends the 100 CRD that the sibling-aware view credits to it as the
post-sibling minter of GOLD, although the sequential commit pays A. -/
def c1Msg3 : Msg :=
  { payload := .send "CRD" 100 "B" "D" "B" 2, hash := 1, signature := "w" }

def c1Block : Block :=
  { hash := 7, prevHash := 5, height := 2, difficulty := 2000, version := "0.0.1"
    timestamp := 0, messages := [c1Msg1, c1Msg2, c1Msg3], nonce := 0 }

/-- C2 witness input message. -/
def c2Msg : Msg :=
  { payload := .send "CRD" 40 "A" "B" "A" 1, hash := 1, signature := "s" }

def c2Db : Db :=
  { balances := [("A", [("CRD", 100)])], messageHashes := []
    minters := [(CRD, MVal.null)], prices := [(CRD, none)] }

def c2Block : Block :=
  { hash := 7, prevHash := 0, height := 1, difficulty := 1000, version := "0.0.1"
    timestamp := 0, messages := [c2Msg], nonce := 0 }

/-- C3 witness input: a chain whose tail is at height 14. -/
def c3Tail : Block :=
  { hash := 5, prevHash := 0, height := 14, difficulty := 1000, version := "0.0.1"
    timestamp := 0, messages := [], nonce := 0 }

/-- C3 witness input: a message with `startHeight = 5`. -/
def c3Msg : Msg :=
  { payload := .send "CRD" 40 "A" "B" "A" 5, hash := 1, signature := "s" }

/-- C4 counterexample state: A holds 5 units of the lexically invalid asset
`gold`. -/
def c4Db : Db :=
  { balances := [("A", [("gold", 5)])], messageHashes := []
    minters := [(CRD, MVal.null)], prices := [(CRD, none)] }

/-- C4 counterexample: a send of 1 `gold` (quantity a positive integer,
source balance 5 ≥ 1) whose asset fails the lexical check. -/
def c4Msg : Msg :=
  { payload := .send "gold" 1 "A" "B" "A" 1, hash := 1, signature := "s" }

def c4WDb : Db :=
  { balances := [("A", [("CRD", 100)])], messageHashes := []
    minters := [(CRD, MVal.null)], prices := [(CRD, none)] }

def c6Tail : Block :=
  { hash := 5, prevHash := 0, height := 1, difficulty := 1000, version := "0.0.1"
    timestamp := 50, messages := [], nonce := 0 }

def c6Block : Block :=
  { hash := 7, prevHash := 5, height := 2, difficulty := 2000, version := "0.0.1"
    timestamp := 10, messages := [], nonce := 0 }

def c7Block : Block :=
  { hash := 5, prevHash := 0, height := 1, difficulty := 1000, version := "0.0.1"
    timestamp := 0, messages := [], nonce := 0 }

/-- C9 counterexample: A sends the (never minted) `CRD:mint` token to B … -/
def c9Msg1 : Msg :=
  { payload := .send "CRD:mint" 1 "A" "B" "A" 1, hash := 1, signature := "s" }

/-- … while B sends it back to A; each send is funded only by the other one
through the sibling-aware balance view. -/
def c9Msg2 : Msg :=
  { payload := .send "CRD:mint" 1 "B" "A" "B" 1, hash := 1, signature := "t" }

def c9Block : Block :=
  { hash := 7, prevHash := 0, height := 1, difficulty := 1000, version := "0.0.1"
    timestamp := 0, messages := [c9Msg1, c9Msg2], nonce := 0 }

/-- C10 input: the message already sitting in the mempool. -/
def c10Old : Msg :=
  { payload := .send "CRD" 40 "A" "B" "A" 1, hash := 1, signature := "s" }

/-- C10 input: a resubmission with the same hash but a payload that could
never validate (it would fail the payload-hash check). -/
def c10New : Msg :=
  { payload := .send "CRD" 999999 "A" "B" "A" 1, hash := 1, signature := "other" }

def c10Pool : Mempool := { blocks := [], messages := [c10Old] }

theorem lookupFirst_setFirst_self (k : String) (v : α) (l : List (String × α)) :
    lookupFirst k (setFirst k v l) = some v := by
  induction l with
  | nil => simp [setFirst, lookupFirst]
  | cons h t ih =>
    obtain ⟨k', v'⟩ := h
    by_cases hk : k' = k
    · simp [setFirst, lookupFirst, hk]
    · simp [setFirst, lookupFirst, hk, ih]

theorem lookupFirst_setFirst_ne (k k' : String) (v : α) (l : List (String × α))
    (hne : k ≠ k') :
    lookupFirst k' (setFirst k v l) = lookupFirst k' l := by
  induction l with
  | nil => simp [setFirst, lookupFirst, hne]
  | cons h t ih =>
    obtain ⟨k0, v0⟩ := h
    by_cases hk : k0 = k
    · subst hk
      simp [setFirst, lookupFirst, hne]
    · simp [setFirst, lookupFirst, hk, ih]

theorem sumAsset_setFirst (b : List (String × List (String × ℚ))) (addr : String)
    (sub : List (String × ℚ)) (asset : String) :
    sumAsset (setFirst addr sub b) asset =
      sumAsset b asset + (lookupFirst asset sub).getD 0 - getBal b addr asset := by
  induction b with
  | nil => simp [setFirst, sumAsset, getBal, lookupFirst]
  | cons h t ih =>
    obtain ⟨k, s⟩ := h
    by_cases hk : k = addr
    · subst hk
      simp [setFirst, sumAsset, getBal, lookupFirst]
      ring
    · have step : setFirst addr sub ((k, s) :: t) = (k, s) :: setFirst addr sub t := by
        simp [setFirst, hk]
      have lk : lookupFirst addr ((k, s) :: t) = lookupFirst addr t := by
        simp [lookupFirst, hk]
      rw [step]
      simp only [sumAsset, List.map_cons, List.sum_cons] at ih ⊢
      simp only [getBal, lk]
      simp only [sumAsset, getBal] at ih
      rw [ih]
      ring

theorem lookupFirst_getD_sub (b : List (String × List (String × ℚ)))
    (addr asset : String) :
    (lookupFirst asset ((lookupFirst addr b).getD [])).getD 0 = getBal b addr asset := by
  cases h : lookupFirst addr b <;> simp [getBal, h, lookupFirst]

theorem sumAsset_setBal_general (b : List (String × List (String × ℚ)))
    (addr a asset : String) (v : ℚ) :
    sumAsset (setBal b addr a v) asset =
      if a = asset then sumAsset b asset + v - getBal b addr asset
      else sumAsset b asset := by
  unfold setBal
  rw [sumAsset_setFirst]
  by_cases ha : a = asset
  · subst ha
    rw [lookupFirst_setFirst_self]
    simp
  · rw [lookupFirst_setFirst_ne _ _ _ _ ha, lookupFirst_getD_sub]
    simp [ha]

theorem applyCommitMessage_send_balances (c : Crypto) (db : Db) (m : Msg)
    (hs : m.payload.isSend = true) (asset : String) :
    sumAsset (applyCommitMessage c db m).balances asset = sumAsset db.balances asset := by
  obtain ⟨p, hash, sig⟩ := m
  cases p with
  | send a q src dst pk sh =>
    simp only [applyCommitMessage]
    rw [sumAsset_setBal_general, sumAsset_setBal_general]
    by_cases ha : a = asset
    · subst ha
      simp only [eq_self_iff_true, if_true]
      ring
    · simp [ha]
  | coinbase a q ad sh => simp [Payload.isSend] at hs
  | minter a pk sh => simp [Payload.isSend] at hs
  | mint a q pk sh => simp [Payload.isSend] at hs
  | get ad a q sh => simp [Payload.isSend] at hs
  | burn a q pk sh => simp [Payload.isSend] at hs
  | drop ad a q sh => simp [Payload.isSend] at hs
  | price a p pk sh => simp [Payload.isSend] at hs
  | buy a q p pk sh => simp [Payload.isSend] at hs

theorem map_insertSorted (key : α → ℚ) (x : α) (l : List α) :
    (insertSorted key x l).map key = insertSorted id (key x) (l.map key) := by
  induction l with
  | nil => simp [insertSorted]
  | cons y ys ih =>
    by_cases h : key x ≤ key y
    · simp [insertSorted, h]
    · simp [insertSorted, h, ih]

theorem map_sortOn (key : α → ℚ) (l : List α) :
    (sortOn key l).map key = sortOn id (l.map key) := by
  induction l with
  | nil => simp [sortOn]
  | cons x xs ih => simp [sortOn, map_insertSorted, ih]

theorem minTimestamp_eq_specMedian (blocks : List Block) :
    getNextBlockMinTimestamp blocks =
      specMedian ((lastN TARGET_BLOCKS blocks).map Block.timestamp) := by
  unfold getNextBlockMinTimestamp specMedian
  rw [← map_sortOn]
  simp only [tsAt, qAt, List.get?_map, List.length_map]

theorem foldl_maxBlock (rest : List Block) (b : Block) :
    (rest.foldl (fun acc cb => if cb.timestamp > acc.timestamp then cb else acc) b).timestamp =
      (rest.map Block.timestamp).foldl max b.timestamp := by
  induction rest generalizing b with
  | nil => rfl
  | cons y ys ih =>
    simp only [List.foldl_cons, List.map_cons]
    rw [ih]
    congr 1
    by_cases h : y.timestamp > b.timestamp
    · rw [if_pos h, max_eq_right (le_of_lt h)]
    · rw [if_neg h, max_eq_left (not_lt.mp h)]

theorem foldl_minBlock (rest : List Block) (b : Block) :
    (rest.foldl (fun acc cb => if cb.timestamp < acc.timestamp then cb else acc) b).timestamp =
      (rest.map Block.timestamp).foldl min b.timestamp := by
  induction rest generalizing b with
  | nil => rfl
  | cons y ys ih =>
    simp only [List.foldl_cons, List.map_cons]
    rw [ih]
    congr 1
    by_cases h : y.timestamp < b.timestamp
    · rw [if_pos h, min_eq_right (le_of_lt h)]
    · rw [if_neg h, min_eq_left (not_lt.mp h)]

theorem foldl_add_diff (l : List Block) (s : ℚ) :
    l.foldl (fun acc cb => acc + cb.difficulty) s = s + (l.map Block.difficulty).sum := by
  induction l generalizing s with
  | nil => simp
  | cons y ys ih =>
    simp only [List.foldl_cons, List.map_cons, List.sum_cons, ih]
    ring

theorem lastN_ne_nil (n : Nat) (l : List α) (h : l ≠ []) (hn : 0 < n) :
    lastN n l ≠ [] := by
  unfold lastN
  intro hc
  rw [List.drop_eq_nil_iff] at hc
  have hl : 0 < l.length := List.length_pos.mpr h
  omega

/-- C1: the claim says that after a block passes `Block.verify` and is applied
by `_commitMainChainBlock`, every asset balance is a non-negative integer and
zero balances are pruned.  The code violates both parts: starting from an
invariant-satisfying state (all balances non-negative), the block
`[buy GOLD, send GOLD:mint A→B, send 100 CRD B→D]` passes `Block.verify`
(the sibling-aware balance view credits the buy's proceeds to the
post-sibling minter B, while the sequential commit pays the pre-send minter
A), and the committed state stores the balance −100 for B in CRD and keeps
A's pruned-to-zero `GOLD:mint` entry as an explicit 0. -/
theorem commit_negative_balance_code_bug :
    balancesNonneg c1Db.balances = true ∧
    verifyBlock trivCrypto c1Db [c1B0] none c1Block = none ∧
    getBal (commitMainChainBlock trivCrypto c1Db [c1B0] none c1Block).1.balances
        "B" CRD = -100 ∧
    lookupFirst "GOLD:mint"
        ((lookupFirst "A"
          (commitMainChainBlock trivCrypto c1Db [c1B0] none c1Block).1.balances).getD []) =
      some 0 := by
  refine ⟨by with_unfolding_all rfl, by with_unfolding_all rfl,
    by with_unfolding_all rfl, by with_unfolding_all rfl⟩

/-- C2: for every main-chain commit of a block whose messages are all of type
`send`, and for every asset, the total supply of that asset (the sum of its
balance over all address entries) in the Db produced by
`_commitMainChainBlock` equals the total supply in the input Db. -/
theorem commit_send_only_conservation (c : Crypto) (db : Db) (blocks : List Block)
    (mempool : Option Mempool) (block : Block) (asset : String)
    (hsend : ∀ m ∈ block.messages, m.payload.isSend = true) :
    sumAsset (commitMainChainBlock c db blocks mempool block).1.balances asset =
      sumAsset db.balances asset := by
  unfold commitMainChainBlock
  simp only
  have main : ∀ (l : List Msg) (d : Db), (∀ m ∈ l, m.payload.isSend = true) →
      sumAsset (l.foldl (applyCommitMessage c) d).balances asset =
        sumAsset d.balances asset := by
    intro l
    induction l with
    | nil => intro d _; rfl
    | cons m rest ih =>
      intro d hl
      rw [List.foldl_cons]
      rw [ih (applyCommitMessage c d m) (fun x hx => hl x (List.mem_cons_of_mem m hx))]
      exact applyCommitMessage_send_balances c d m (hl m (List.mem_cons_self m rest)) asset
  exact main block.messages db hsend

theorem commit_send_only_conservation_witness :
    sumAsset (commitMainChainBlock trivCrypto c2Db [] none c2Block).1.balances "CRD" =
      sumAsset c2Db.balances "CRD" :=
  commit_send_only_conservation trivCrypto c2Db [] none c2Block "CRD"
    (by with_unfolding_all decide)

/-- C3: for every message whose payload hashes correctly, `Message.verify`
accepts only when `nextHeight = (height of the last block, or 0) + 1` lies in
`[startHeight, startHeight + MESSAGE_TTL)`; outside the window it returns
`{status: 400, error: "ttl expired"}`. -/
theorem verify_ttl_window (c : Crypto) (db : Db) (blocks : List Block)
    (mempool : Option Mempool) (confirmingMessages : List Msg) (m : Msg)
    (hhash : c.sha256 m.payload = m.hash) :
    (¬ (tailHeight blocks + 1 ≥ m.payload.startHeight ∧
        tailHeight blocks + 1 < m.payload.startHeight + MESSAGE_TTL) →
      verifyMsg c db blocks mempool confirmingMessages m =
        some ⟨400, some "ttl expired", none, false⟩) ∧
    (verifyMsg c db blocks mempool confirmingMessages m = none →
      tailHeight blocks + 1 ≥ m.payload.startHeight ∧
        tailHeight blocks + 1 < m.payload.startHeight + MESSAGE_TTL) := by
  have hmain : ¬ (tailHeight blocks + 1 ≥ m.payload.startHeight ∧
      tailHeight blocks + 1 < m.payload.startHeight + MESSAGE_TTL) →
      verifyMsg c db blocks mempool confirmingMessages m =
        some ⟨400, some "ttl expired", none, false⟩ := by
    intro hwin
    unfold verifyMsg
    rw [if_pos hhash, if_neg hwin]
  refine ⟨hmain, ?_⟩
  intro hnone
  by_contra hwin
  rw [hmain hwin] at hnone
  exact Option.noConfusion hnone

theorem verify_ttl_window_witness :
    verifyMsg trivCrypto DEFAULT_DB [c3Tail] none [] c3Msg =
      some ⟨400, some "ttl expired", none, false⟩ :=
  (verify_ttl_window trivCrypto DEFAULT_DB [c3Tail] none [] c3Msg rfl).1
    (by with_unfolding_all decide)

/-- C4 (amended): for a send message passing the shared preconditions, the
signature check, and additionally the asset-validity check, verify rejects
with `{400, "invalid quantity"}` unless the quantity is a positive integer
(exactly 1 for a `*:mint` asset); otherwise, if the balance of the source in
the applicable view (confirmed when mempool is nil, unconfirmed otherwise,
each including confirming siblings) is below the quantity it returns
`{402, "insufficient funds"}`, and otherwise null. -/
theorem send_verify_result (c : Crypto) (db : Db) (blocks : List Block)
    (mempool : Option Mempool) (confirmingMessages : List Msg)
    (asset : String) (quantity : ℚ) (srcAddress dstAddress publicKey : String)
    (startHeight : ℚ) (hash : Nat) (signature : String)
    (hhash : c.sha256 (.send asset quantity srcAddress dstAddress publicKey startHeight) = hash)
    (httl : tailHeight blocks + 1 ≥ startHeight ∧
        tailHeight blocks + 1 < startHeight + MESSAGE_TTL)
    (hreplay : db.messageHashes.any (fun hashes => hashes.contains hash) = false)
    (hsig : c.sigVerify publicKey
      (c.sha256 (.send asset quantity srcAddress dstAddress publicKey startHeight))
      signature = true)
    (haddr : c.addrOf publicKey = srcAddress)
    (hasset : isValidAsset asset = true) :
    verifyMsg c db blocks mempool confirmingMessages
        ⟨.send asset quantity srcAddress dstAddress publicKey startHeight, hash, signature⟩ =
      if 0 < quantity ∧ floorJs quantity = quantity ∧
          (¬ isMintAsset asset = true ∨ quantity = 1) then
        (if (match mempool with
             | none => getConfirmedBalance c db confirmingMessages srcAddress asset
             | some mp =>
               getUnconfirmedBalance c db mp confirmingMessages srcAddress asset) ≥ quantity
         then none
         else some ⟨402, some "insufficient funds", none, false⟩)
      else some ⟨400, some "invalid quantity", none, false⟩ := by
  unfold verifyMsg
  simp only [Payload.startHeight]
  rw [if_pos hhash, if_pos httl,
    if_pos (show ¬ _ by intro hc; rw [hreplay] at hc; exact Bool.noConfusion hc),
    if_pos ⟨hsig, haddr⟩, if_pos hasset]

/-- C4 counterexample: a send whose every shared precondition and the
signature check hold, whose quantity is the positive integer 1 and whose
source balance is 5 ≥ 1, is still rejected — with `{400, "invalid asset"}` —
because its asset `gold` fails the lexical check the claim omits. -/
theorem send_invalid_asset_cex :
    verifyMsg trivCrypto c4Db [] none [] c4Msg =
        some ⟨400, some "invalid asset", none, false⟩ ∧
      getConfirmedBalance trivCrypto c4Db [] "A" "gold" = 5 := by
  exact ⟨by with_unfolding_all rfl, by with_unfolding_all rfl⟩

theorem send_verify_result_witness :
    verifyMsg trivCrypto c4WDb [] none []
        ⟨.send "CRD" 40 "A" "B" "A" 1, 1, "sg"⟩ = none :=
  (send_verify_result trivCrypto c4WDb [] none [] "CRD" 40 "A" "B" "A" 1 1 "sg"
      rfl (by with_unfolding_all decide) (by with_unfolding_all rfl) rfl rfl
      (by with_unfolding_all rfl)).trans (by with_unfolding_all rfl)

/-- C5: `Block.verify` performs its seven self-contained checks in the
spec's fixed order — recomputed hash, prevHash (the only soft failure),
height, timestamp against the median, difficulty target, message count,
sufficient difficulty — returning the error of the first failing check, and
only then validates every message with the block's other messages as
siblings and a nil mempool. -/
theorem block_checks_in_order (c : Crypto) (db : Db) (blocks : List Block) (b : Block) :
    verifyBlock c db blocks none b =
      match firstFailure (specBlockChecks c blocks b) with
      | some e => some e
      | none => verifyMessagesLoop c db blocks none [] b.messages := by
  unfold verifyBlock specBlockChecks
  rw [← minTimestamp_eq_specMedian]
  by_cases h1 : blockGetHash c b = b.hash
  case neg => simp [firstFailure, h1]
  by_cases h2 : b.prevHash = tailHash blocks
  case neg => simp [firstFailure, h1, h2]
  by_cases h3 : b.height = tailHeight blocks + 1
  case neg => simp [firstFailure, h1, h2, h3]
  by_cases h4 : getNextBlockMinTimestamp blocks ≤ b.timestamp
  case neg => simp [firstFailure, h1, h2, h3, ge_iff_le, h4]
  by_cases h5 : checkHashMeetsTarget b.hash (getDifficultyTarget b.difficulty) = true
  case neg => simp [firstFailure, h1, h2, h3, ge_iff_le, h4, h5]
  by_cases h6 : b.messages.length ≤ MESSAGES_PER_BLOCK_MAX
  case neg => simp [firstFailure, h1, h2, h3, ge_iff_le, h4, h5, h6]
  by_cases h7 : max (getNextBlockBaseDifficulty blocks - getMessagesDifficulty b.messages)
      MIN_DIFFICULTY ≤ b.difficulty
  case neg => simp [firstFailure, h1, h2, h3, ge_iff_le, h4, h5, h6, h7]
  simp [firstFailure, h1, h2, h3, ge_iff_le, h4, h5, h6, h7]

/-- C6: the minimum admissible next-block timestamp equals the median of the
timestamps of the last `min(10, length)` blocks — the mean of the two middle
values for an even-sized sample, 0 for an empty one — and a block whose
earlier checks pass but whose timestamp is below this value is rejected with
`{400, "invalid timestamp"}`. -/
theorem median_timestamp_rule :
    (∀ blocks : List Block,
      getNextBlockMinTimestamp blocks =
        specMedian ((lastN TARGET_BLOCKS blocks).map Block.timestamp)) ∧
    (∀ (c : Crypto) (db : Db) (blocks : List Block) (b : Block),
      blockGetHash c b = b.hash →
      b.prevHash = tailHash blocks →
      b.height = tailHeight blocks + 1 →
      b.timestamp < getNextBlockMinTimestamp blocks →
      verifyBlock c db blocks none b =
        some ⟨400, some "invalid timestamp", none, false⟩) := by
  refine ⟨minTimestamp_eq_specMedian, ?_⟩
  intro c db blocks b h1 h2 h3 h4
  unfold verifyBlock
  rw [if_neg (not_not_intro h1), if_neg (not_not_intro h2), if_neg (not_not_intro h3),
    if_pos (not_le.mpr h4)]

theorem median_timestamp_rule_witness :
    verifyBlock trivCrypto DEFAULT_DB [c6Tail] none c6Block =
      some ⟨400, some "invalid timestamp", none, false⟩ :=
  median_timestamp_rule.2 trivCrypto DEFAULT_DB [c6Tail] c6Block rfl rfl
    (by with_unfolding_all rfl) (by with_unfolding_all decide)

/-- C7: for every non-empty chain, `_getNextBlockBaseDifficulty` returns
`max(mean(difficulty(W)) / clamp(Δt / TARGET_TIME, 0.5, 2), 1000)` where `W`
is the last `min(10, length)` blocks and `Δt = maxTs(W) − minTs(W)`. -/
theorem base_difficulty_formula (blocks : List Block) (hne : blocks ≠ []) :
    getNextBlockBaseDifficulty blocks =
      max (meanQ ((lastN TARGET_BLOCKS blocks).map Block.difficulty) /
          clampQ ((listMaxQ ((lastN TARGET_BLOCKS blocks).map Block.timestamp) -
              listMinQ ((lastN TARGET_BLOCKS blocks).map Block.timestamp)) / TARGET_TIME)
            TARGET_SWAY_MIN TARGET_SWAY_MAX)
        MIN_DIFFICULTY := by
  have hcb : lastN TARGET_BLOCKS blocks ≠ [] :=
    lastN_ne_nil TARGET_BLOCKS blocks hne (by norm_num [TARGET_BLOCKS])
  obtain ⟨x, xs, hx⟩ := List.exists_cons_of_ne_nil hcb
  unfold getNextBlockBaseDifficulty meanQ clampQ listMaxQ listMinQ
  rw [hx]
  simp only [List.map_cons]
  rw [foldl_maxBlock, foldl_minBlock, foldl_add_diff]
  simp only [List.length_cons, List.length_map, List.sum_cons, List.map_cons, zero_add]

theorem base_difficulty_formula_witness :
    getNextBlockBaseDifficulty [c7Block] =
      max (meanQ ((lastN TARGET_BLOCKS [c7Block]).map Block.difficulty) /
          clampQ ((listMaxQ ((lastN TARGET_BLOCKS [c7Block]).map Block.timestamp) -
              listMinQ ((lastN TARGET_BLOCKS [c7Block]).map Block.timestamp)) / TARGET_TIME)
            TARGET_SWAY_MIN TARGET_SWAY_MAX)
        MIN_DIFFICULTY :=
  base_difficulty_formula [c7Block] (by simp)

/-- C8: the claim says a side-chain block whose chain's work does not exceed
the main chain's is only appended to `mempool.blocks`, with a reorganization
only on strictly greater work.  In the source, `_commitSideChainBlock`
unconditionally evaluates the undeclared identifier `sidechainBlocks` (the
parameter is `sideChainBlocks`), so every call — reorg or not — raises a
ReferenceError before producing any state: the block is never appended and
no reorganization can ever run. -/
theorem commitSideChain_reference_error (dbs : List Db) (blocks : List Block)
    (mempool : Mempool) (block : Block) (forkedBlock : Option Block)
    (sideChainBlocks : List Block) :
    commitSideChainBlock dbs blocks mempool block forkedBlock sideChainBlocks =
      Except.error (.referenceError "sidechainBlocks is not defined") := rfl

/-- C9: the claim says `minters[CRD] = null` and `prices[CRD] = +∞` are
immutable from the default Db.  The code violates this: starting from
`DEFAULT_DB` with no blocks, the block containing the circular pair
`send CRD:mint A→B` / `send CRD:mint B→A` (each funded only by the other via
the sibling-aware balance view) passes `Block.verify` as a main-chain block,
and committing it sets `minters[CRD]` to the address A. -/
theorem crd_minter_overwritten_code_bug :
    verifyBlock trivCrypto DEFAULT_DB [] none c9Block = none ∧
    lookupFirst CRD DEFAULT_DB.minters = some MVal.null ∧
    lookupFirst CRD
        (commitMainChainBlock trivCrypto DEFAULT_DB [] none c9Block).1.minters =
      some (MVal.addr "A") := by
  refine ⟨by with_unfolding_all rfl, rfl, by with_unfolding_all rfl⟩

/-- C10: when the mempool has fewer than `MESSAGES_PER_BLOCK_MAX` messages
and already contains a message with the submitted message's hash,
`addMessage` returns null (success) without consulting the validator, with
the mempool unchanged and no `message` event emitted — so a duplicate that
would now fail validation is still reported as success. -/
theorem addMessage_duplicate_success (c : Crypto) (db : Db) (blocks : List Block)
    (mempool : Mempool) (message : Msg)
    (hlen : mempool.messages.length < MESSAGES_PER_BLOCK_MAX)
    (hdup : mempool.messages.any
      (fun mempoolMessage => mempoolMessage.hash = message.hash) = true) :
    addMessage c db blocks mempool message = (none, mempool, false) := by
  unfold addMessage
  rw [if_pos hlen, if_neg (by simpa using hdup)]

theorem addMessage_duplicate_success_witness :
    addMessage trivCrypto DEFAULT_DB [] c10Pool c10New = (none, c10Pool, false) :=
  addMessage_duplicate_success trivCrypto DEFAULT_DB [] c10Pool c10New
    (by with_unfolding_all decide) (by with_unfolding_all decide)
